import Mathlib

/-!
Shallow embedding of `src/ol/style/Style.js` (OpenLayers style descriptor
module): the Style descriptor, its geometry resolver derivation, `clone`,
the default-style factory, the editing-style factory and the `toFunction`
adapter.  JavaScript values are modelled by an explicit value type; object
identity and mutation are modelled by an explicit heap of numbered
references; the module-level `defaultStyles` cache is modelled as explicit
module state.  Machine floating point only appears here through the exact
literals `1.25`, `0.4`, `1.5`, `5`, `6` and `Infinity`, all of which are
represented exactly, so numbers are modelled as rationals extended with
infinities and NaN.
-/

set_option maxHeartbeats 4000000

namespace OLStyle

/-- JavaScript numbers, restricted to what this module manipulates:
finite values (all literals in the source are exactly representable) plus
the IEEE specials.  `Infinity` is the `zIndex` sentinel used by
`createEditingStyle`. -/
inductive JSNum where
  | qr (q : ℚ)
  | inf
  | negInf
  | nan
deriving DecidableEq, Repr

/-- JavaScript truthiness for numbers: `0` and `NaN` are falsy. -/
def JSNum.truthy : JSNum → Bool
  | .qr q => q ≠ 0
  | .nan => false
  | _ => true

/-- JavaScript values as this module observes them.  Heap objects (arrays,
styles, sub-styles, geometries) are references (`obj r`).  Function values
are defunctionalized: the module creates exactly the closure shapes
`fnDefaultGeometry` (the module-level `defaultGeometryFunction`),
`fnGeomProp name` (the closure built by `setGeometry` for a string spec),
`fnGeomConst v` (the closure built by `setGeometry` for a truthy
non-string non-function spec) and `fnStylesClosure r` (the closure built
by `toFunction`, capturing the array `styles` at reference `r`); any
caller-supplied function is an opaque `fnExtern id`. -/
inductive JSValue where
  | undefined
  | null
  | boolean (b : Bool)
  | number (n : JSNum)
  | str (s : String)
  | obj (r : Nat)
  | fnExtern (id : Nat)
  | fnDefaultGeometry
  | fnGeomProp (name : String)
  | fnGeomConst (v : JSValue)
  | fnStylesClosure (r : Nat)
deriving DecidableEq, Repr

/-- Shorthand for a finite JavaScript number value. -/
def numv (q : ℚ) : JSValue := .number (.qr q)

/-- `typeof v === 'function'`. -/
def JSValue.isFunction : JSValue → Bool
  | .fnExtern _ | .fnDefaultGeometry | .fnGeomProp _
  | .fnGeomConst _ | .fnStylesClosure _ => true
  | _ => false

/-- `typeof v === 'string'`. -/
def JSValue.isString : JSValue → Bool
  | .str _ => true
  | _ => false

/-- JavaScript truthiness: `undefined`, `null`, `false`, `0`, `NaN` and
the empty string are falsy; every object and function is truthy. -/
def JSValue.truthy : JSValue → Bool
  | .undefined => false
  | .null => false
  | .boolean b => b
  | .number n => n.truthy
  | .str s => s ≠ ""
  | _ => true

/-- Association-list lookup keyed by `Nat` references. -/
def assocGet : List (Nat × α) → Nat → Option α
  | [], _ => none
  | (k, v) :: t, r => if r = k then some v else assocGet t r

/-- Association-list lookup keyed by strings (feature properties). -/
def strGet : List (String × α) → String → Option α
  | [], _ => none
  | (k, v) :: t, s => if s = k then some v else strGet t s

/-- Modelled from the spec: the Feature collaborator (not part of this
module's source) exposes `get(propertyName) -> value-or-absent` and
`getGeometry() -> geometry-or-absent`. -/
structure Feature where
  props : List (String × JSValue)
  geom : JSValue
deriving DecidableEq, Repr

/-- `feature.get(name)`: an absent property reads as `undefined`. -/
def Feature.get (f : Feature) (name : String) : JSValue :=
  match strGet f.props name with
  | some v => v
  | none => .undefined

/-- `feature.getGeometry()`. -/
def Feature.getGeometry (f : Feature) : JSValue := f.geom

/-- The fields of a `Style` instance, mirroring the constructor's private
slots (`geometry_`, `geometryFunction_`, `fill_`, `image_`, `renderer_`,
`stroke_`, `text_`, `zIndex_`) with their initial values.  The code
declares `geometryFunction_` with the non-null type
`!ol.StyleGeometryFunction`; that it in fact always holds a function value
is proved below, not assumed. -/
structure StyleFields where
  geometry_ : JSValue := .null
  geometryFunction_ : JSValue := .fnDefaultGeometry
  fill_ : JSValue := .null
  image_ : JSValue := .null
  renderer_ : JSValue := .null
  stroke_ : JSValue := .null
  text_ : JSValue := .null
  zIndex_ : JSValue := .undefined
deriving DecidableEq, Repr

/-- Heap objects.  `geom` models a geometry value (an external
collaborator: per the spec it optionally exposes `clone()`, recorded in
`hasCloneMethod`, and carries opaque `payload` data).  `fill`, `stroke`,
`circle` and `text` model the sub-style collaborators (Fill, Stroke,
CircleStyle, Text) with the visual parameters this module's factories
set. -/
inductive Obj where
  | arr (elems : List JSValue)
  | geom (hasCloneMethod : Bool) (payload : Nat)
  | fill (color : JSValue)
  | stroke (color : JSValue) (width : JSValue)
  | circle (radius : JSValue) (fillv : JSValue) (strokev : JSValue)
  | text (payload : JSValue)
  | style (s : StyleFields)
deriving DecidableEq, Repr

/-- The heap: numbered objects plus the next fresh reference. -/
structure Heap where
  objs : List (Nat × Obj) := []
  next : Nat := 0
deriving DecidableEq, Repr

/-- Dereference. -/
def Heap.get (h : Heap) (r : Nat) : Option Obj := assocGet h.objs r

/-- Allocate a new object at reference `h.next`.  Call sites read the new
reference off as `h.next` before allocating, mirroring `new ...` in the
source. -/
def Heap.alloc (h : Heap) (o : Obj) : Heap :=
  { objs := (h.next, o) :: h.objs, next := h.next + 1 }

/-- Overwrite the object at an existing reference (mutation). -/
def Heap.set (h : Heap) (r : Nat) (o : Obj) : Heap :=
  { objs := (r, o) :: h.objs, next := h.next }

/-- Well-formedness: every stored reference is below `next`. -/
def Heap.wf (h : Heap) : Bool := h.objs.all (fun p => p.1 < h.next)

/-- The elements of an array value, read through the heap (used to model
`Array.prototype.concat` in `createEditingStyle`). -/
def Heap.arrElems (h : Heap) (v : JSValue) : List JSValue :=
  match v with
  | .obj r =>
      match h.get r with
      | some (.arr l) => l
      | _ => []
  | _ => []

/-- The constructor's options record.  JavaScript option records are
total maps from the option names to values where a missing key reads as
`undefined`; the source only ever tests `options.x !== undefined`, so a
field defaulting to `undefined` models both a missing key and an explicit
`undefined`. -/
structure StyleOptions where
  geometry : JSValue := .undefined
  fill : JSValue := .undefined
  image : JSValue := .undefined
  renderer : JSValue := .undefined
  stroke : JSValue := .undefined
  text : JSValue := .undefined
  zIndex : JSValue := .undefined
deriving DecidableEq, Repr

/-- `defaultGeometryFunction` (Style.js lines 424-426): the module-level
resolver returning `feature.getGeometry()`.  Its call behavior is given by
`applyFn` below. -/
def defaultGeometryFunction : JSValue := .fnDefaultGeometry

/-- `Style.prototype.setGeometry` (Style.js lines 244-259), acting on the
fields.  Branch order as in the source: function, then string, then
`!geometry` (falsy), then the final `geometry !== undefined` branch (whose
guard is always true when reached, since `undefined` is falsy); the raw
spec is stored in `geometry_` unconditionally at the end. -/
def setGeometryFields (s : StyleFields) (geometry : JSValue) : StyleFields :=
  let s1 :=
    if geometry.isFunction then
      { s with geometryFunction_ := geometry }
    else
      match geometry with
      | .str name => { s with geometryFunction_ := .fnGeomProp name }
      | g =>
          if !g.truthy then { s with geometryFunction_ := .fnDefaultGeometry }
          else if g ≠ .undefined then { s with geometryFunction_ := .fnGeomConst g }
          else s
  { s1 with geometry_ := geometry }

/-- The `Style` constructor body (Style.js lines 21-77) producing the
fields: `geometry_` starts `null` and `geometryFunction_` starts as the
default resolver; a defined `options.geometry` goes through `setGeometry`;
each of fill/image/renderer/stroke/text defaults to `null` when the option
is `undefined`; `zIndex_` is copied as-is (staying `undefined` when
absent). -/
def mkStyleFields (options : StyleOptions) : StyleFields :=
  let s : StyleFields := {}
  let s :=
    if options.geometry ≠ .undefined then setGeometryFields s options.geometry else s
  { s with
    fill_ := if options.fill ≠ .undefined then options.fill else .null
    image_ := if options.image ≠ .undefined then options.image else .null
    renderer_ := if options.renderer ≠ .undefined then options.renderer else .null
    stroke_ := if options.stroke ≠ .undefined then options.stroke else .null
    text_ := if options.text ≠ .undefined then options.text else .null
    zIndex_ := options.zIndex }

/-- `new Style(options)`: allocate the instance.  The fresh reference is
`h.next`. -/
def newStyle (h : Heap) (options : StyleOptions) : Heap :=
  h.alloc (.style (mkStyleFields options))

/-- Environment giving the behavior of opaque caller-supplied functions
(`fnExtern`). -/
def Env : Type := Nat → Feature → JSValue → JSValue

/-- Calling a function value on `(feature, resolution)`.  Each
defunctionalized closure's body comes from the source: the default
resolver returns `feature.getGeometry()`; the string-spec closure returns
`feature.get(name)`; the fixed-value closure returns its captured value;
the `toFunction` closure returns its captured `styles` array reference.
Calling a non-function raises a TypeError in JavaScript; no modelled claim
calls a non-function, and that case is mapped to `undefined` here. -/
def applyFn (env : Env) (f : JSValue) (feature : Feature)
    (resolution : JSValue) : JSValue :=
  match f with
  | .fnExtern i => env i feature resolution
  | .fnDefaultGeometry => feature.getGeometry
  | .fnGeomProp name => feature.get name
  | .fnGeomConst v => v
  | .fnStylesClosure r => .obj r
  | _ => .undefined

/-- `v && v.clone` as a boolean on the `.clone` part: does the value have
a truthy `clone` property?  Primitive values (strings, numbers, booleans,
functions, `null`, `undefined`) have none; arrays have none; geometry
objects have one exactly when the collaborator exposes it; the sub-style
collaborators and Style instances expose `clone` on their prototypes. -/
def hasCloneProp (h : Heap) (v : JSValue) : Bool :=
  match v with
  | .obj r =>
      match h.get r with
      | some (.geom hasClone _) => hasClone
      | some (.fill _) => true
      | some (.stroke _ _) => true
      | some (.circle _ _ _) => true
      | some (.text _) => true
      | some (.style _) => true
      | some (.arr _) => false
      | none => false
  | _ => false

/-- The copy allocated by `v.clone()` for each object kind.  Modelled from
the spec for the external collaborators: each sub-style type's `clone()`
"produces an independent copy with equivalent visual parameters", and a
geometry value's optional `clone()` produces an independent copy.  `none`
for arrays (no `clone` method: calling it is a TypeError) and for values
whose clone would re-enter `Style.prototype.clone` (a Style stored as
another Style's geometry spec), which is not modelled because the
re-entrant recursion is unbounded on cyclic heaps. -/
def cloneObj : Obj → Option Obj
  | .geom hc p => some (.geom hc p)
  | .fill c => some (.fill c)
  | .stroke c w => some (.stroke c w)
  | .circle rad f s => some (.circle rad f s)
  | .text p => some (.text p)
  | .arr _ => none
  | .style _ => none

/-- `v.clone()`: allocate the copy.  `none` models a TypeError (no such
method on a primitive), or the unmodelled re-entrant Style clone. -/
def cloneValue (h : Heap) (v : JSValue) : Option (JSValue × Heap) :=
  match v with
  | .obj r =>
      match h.get r with
      | some o =>
          match cloneObj o with
          | some o' => some (.obj h.next, h.alloc o')
          | none => none
      | none => none
  | _ => none

/-- The geometry step of `Style.prototype.clone` (Style.js lines 86-89):
`if (geometry && geometry.clone) geometry = geometry.clone()`, else the
value is passed along by reference. -/
def geometryCloneStep (h : Heap) (g : JSValue) : Option (JSValue × Heap) :=
  if g.truthy && hasCloneProp h g then cloneValue h g else some (g, h)

/-- One sub-style option of `Style.prototype.clone`:
`this.getX() ? this.getX().clone() : undefined`. -/
def cloneField (h : Heap) (v : JSValue) : Option (JSValue × Heap) :=
  if v.truthy then cloneValue h v else some (.undefined, h)

/-- `Style.prototype.clone` (Style.js lines 85-98): clone the geometry
spec when it exposes `clone`, clone each present sub-style, copy `zIndex`
by value, and build a `new Style` from those options (so the result's
renderer is never set).  Fields are evaluated in the source's object
literal order: geometry, fill, image, stroke, text, zIndex.  The result is
the fresh style's reference and the new heap; `none` models a thrown
TypeError (a present sub-style without `clone`) or the unmodelled
re-entrant case. -/
def styleClone (h : Heap) (r : Nat) : Option (Nat × Heap) :=
  match h.get r with
  | some (.style s) =>
      match geometryCloneStep h s.geometry_ with
      | some (g, h1) =>
          match cloneField h1 s.fill_ with
          | some (f, h2) =>
              match cloneField h2 s.image_ with
              | some (img, h3) =>
                  match cloneField h3 s.stroke_ with
                  | some (st, h4) =>
                      match cloneField h4 s.text_ with
                      | some (t, h5) =>
                          some (h5.next,
                            newStyle h5
                              { geometry := g, fill := f, image := img,
                                stroke := st, text := t, zIndex := s.zIndex_ })
                      | none => none
                  | none => none
              | none => none
          | none => none
      | none => none
  | _ => none

/-- Setter calls on a style's fields (`setGeometry`, `setFill`,
`setImage`, `setRenderer`, `setStroke`, `setText`, `setZIndex`,
Style.js lines 118-270): each of the plain setters stores its argument;
`setGeometry` goes through the resolver derivation. -/
inductive StyleOp where
  | opSetGeometry (g : JSValue)
  | opSetFill (v : JSValue)
  | opSetImage (v : JSValue)
  | opSetRenderer (v : JSValue)
  | opSetStroke (v : JSValue)
  | opSetText (v : JSValue)
  | opSetZIndex (v : JSValue)
deriving DecidableEq, Repr

/-- Apply one setter call. -/
def applyOp (s : StyleFields) : StyleOp → StyleFields
  | .opSetGeometry g => setGeometryFields s g
  | .opSetFill v => { s with fill_ := v }
  | .opSetImage v => { s with image_ := v }
  | .opSetRenderer v => { s with renderer_ := v }
  | .opSetStroke v => { s with stroke_ := v }
  | .opSetText v => { s with text_ := v }
  | .opSetZIndex v => { s with zIndex_ := v }

/-- Apply a sequence of setter calls. -/
def applyOps (s : StyleFields) (ops : List StyleOp) : StyleFields :=
  ops.foldl applyOp s

/-- Modelled from the spec: `Fill` (an external collaborator) exposes
mutable visual parameters; mutating one fill instance must not affect an
independent copy.  This models `fill.setColor(c)`. -/
def fillSetColor (h : Heap) (r : Nat) (c : JSValue) : Heap :=
  match h.get r with
  | some (.fill _) => h.set r (.fill c)
  | _ => h

/-- The module state: the heap plus the module-level
`let defaultStyles = null` cache slot (Style.js line 309). -/
structure ModuleState where
  heap : Heap := {}
  defaultStyles : JSValue := .null
deriving DecidableEq, Repr

/-- `createDefaultStyle(feature, resolution)` (Style.js lines 317-344):
on a falsy cache, build the shared fill (`rgba(255,255,255,0.4)`), the
shared stroke (`#3399CC`, width 1.25), the circle image of radius 5 over
those same instances, the single style using the same fill/stroke, and the
one-element array; store it in the cache.  Return the cache.  The feature
and resolution arguments are accepted and ignored. -/
def createDefaultStyle (feature : Feature) (resolution : JSValue)
    (st : ModuleState) : JSValue × ModuleState :=
  if !st.defaultStyles.truthy then
    let h := st.heap
    let fillRef := h.next
    let h := h.alloc (.fill (.str "rgba(255,255,255,0.4)"))
    let strokeRef := h.next
    let h := h.alloc (.stroke (.str "#3399CC") (numv 1.25))
    let circleRef := h.next
    let h := h.alloc (.circle (numv 5) (.obj fillRef) (.obj strokeRef))
    let styleRef := h.next
    let h := newStyle h
      { image := .obj circleRef, fill := .obj fillRef, stroke := .obj strokeRef }
    let arrRef := h.next
    let h := h.alloc (.arr [.obj styleRef])
    (.obj arrRef, { heap := h, defaultStyles := .obj arrRef })
  else
    (st.defaultStyles, st)

/-- The mapping returned by `createEditingStyle`, with one field per
`GeometryType` tag.  Modelled from the spec: the `GeometryType` enum
(`../geom/GeometryType.js`, not under `src/`) only supplies the distinct
string tags used as keys, represented here as record fields. -/
structure EditingStyles where
  polygon : JSValue
  multiPolygon : JSValue
  lineString : JSValue
  multiLineString : JSValue
  circleG : JSValue
  point : JSValue
  multiPoint : JSValue
  geometryCollection : JSValue
deriving DecidableEq, Repr

/-- `createEditingStyle()` (Style.js lines 351-415), allocating in source
evaluation order: the `white` and `blue` color arrays; the polygon entry
(its own color array, fill, style, sequence); the line-string entry (two
stroke/style pairs, widths `width + 2` over white then `width` over blue);
the circle entry as `polygon.concat(lineString)` (a fresh array of the
concatenated elements); the point entry (blue fill, white stroke of width
`width / 2`, circle image of radius `width * 2`, `zIndex: Infinity`); the
geometry-collection entry as `polygon.concat(lineString, point)`.  The
multi-* keys alias the corresponding sequence references. -/
def createEditingStyle (h : Heap) : EditingStyles × Heap :=
  let whiteRef := h.next
  let h := h.alloc (.arr [numv 255, numv 255, numv 255, numv 1])
  let blueRef := h.next
  let h := h.alloc (.arr [numv 0, numv 153, numv 255, numv 1])
  let width : ℚ := 3
  let polyColorRef := h.next
  let h := h.alloc (.arr [numv 255, numv 255, numv 255, numv 0.5])
  let polyFillRef := h.next
  let h := h.alloc (.fill (.obj polyColorRef))
  let polyStyleRef := h.next
  let h := newStyle h { fill := .obj polyFillRef }
  let polyRef := h.next
  let h := h.alloc (.arr [.obj polyStyleRef])
  let lsStroke1Ref := h.next
  let h := h.alloc (.stroke (.obj whiteRef) (numv (width + 2)))
  let lsStyle1Ref := h.next
  let h := newStyle h { stroke := .obj lsStroke1Ref }
  let lsStroke2Ref := h.next
  let h := h.alloc (.stroke (.obj blueRef) (numv width))
  let lsStyle2Ref := h.next
  let h := newStyle h { stroke := .obj lsStroke2Ref }
  let lsRef := h.next
  let h := h.alloc (.arr [.obj lsStyle1Ref, .obj lsStyle2Ref])
  let circleSeqRef := h.next
  let h := h.alloc (.arr (h.arrElems (.obj polyRef) ++ h.arrElems (.obj lsRef)))
  let ptFillRef := h.next
  let h := h.alloc (.fill (.obj blueRef))
  let ptStrokeRef := h.next
  let h := h.alloc (.stroke (.obj whiteRef) (numv (width / 2)))
  let ptCircleRef := h.next
  let h := h.alloc (.circle (numv (width * 2)) (.obj ptFillRef) (.obj ptStrokeRef))
  let ptStyleRef := h.next
  let h := newStyle h { image := .obj ptCircleRef, zIndex := .number .inf }
  let ptRef := h.next
  let h := h.alloc (.arr [.obj ptStyleRef])
  let gcRef := h.next
  let h := h.alloc (.arr (h.arrElems (.obj polyRef) ++ h.arrElems (.obj lsRef)
    ++ h.arrElems (.obj ptRef)))
  ({ polygon := .obj polyRef
     multiPolygon := .obj polyRef
     lineString := .obj lsRef
     multiLineString := .obj lsRef
     circleG := .obj circleSeqRef
     point := .obj ptRef
     multiPoint := .obj ptRef
     geometryCollection := .obj gcRef }, h)

/-- `toFunction` (Style.js lines 281-303): a function passes through
unchanged; an array becomes the closure capturing that very array; a
`Style` instance is first wrapped in a fresh one-element array (allocated
once, here) and becomes the closure capturing it; anything else fails the
`assert(obj instanceof Style, 41)` — modelled as `Except.error` carrying
the fixed diagnostic code 41. -/
def toFunction (h : Heap) (o : JSValue) : Except Nat (JSValue × Heap) :=
  if o.isFunction then
    .ok (o, h)
  else
    match o with
    | .obj r =>
        match h.get r with
        | some (.arr _) => .ok (.fnStylesClosure r, h)
        | some (.style _) => .ok (.fnStylesClosure h.next, h.alloc (.arr [o]))
        | _ => .error 41
    | _ => .error 41

/-- Observation of a stroke reference: the dereferenced color elements and
the width.  Used to state content (as opposed to identity) equality of
factory outputs. -/
def obsStroke (h : Heap) (v : JSValue) : Option (List JSValue × JSValue) :=
  match v with
  | .obj r =>
      match h.get r with
      | some (.stroke c w) => some (h.arrElems c, w)
      | _ => none
  | _ => none

/-- Observation of a fill reference: the dereferenced color elements. -/
def obsFill (h : Heap) (v : JSValue) : Option (List JSValue) :=
  match v with
  | .obj r =>
      match h.get r with
      | some (.fill c) => some (h.arrElems c)
      | _ => none
  | _ => none

/-- Observation of a circle-image reference: radius, fill observation,
stroke observation. -/
def obsImage (h : Heap) (v : JSValue) :
    Option (JSValue × Option (List JSValue) × Option (List JSValue × JSValue)) :=
  match v with
  | .obj r =>
      match h.get r with
      | some (.circle rad f s) => some (rad, obsFill h f, obsStroke h s)
      | _ => none
  | _ => none

/-- Ground observation of one style descriptor: its fill, stroke and image
observations plus its `zIndex`, all dereferenced down to primitive data so
that two observations are equal exactly when the descriptors are equal in
content, independently of reference identity. -/
structure StyleObs where
  fillO : Option (List JSValue)
  strokeO : Option (List JSValue × JSValue)
  imageO : Option (JSValue × Option (List JSValue) × Option (List JSValue × JSValue))
  zIndexO : JSValue
deriving DecidableEq, Repr

/-- Observe one descriptor reference. -/
def obsStyle (h : Heap) (v : JSValue) : Option StyleObs :=
  match v with
  | .obj r =>
      match h.get r with
      | some (.style s) =>
          some { fillO := obsFill h s.fill_, strokeO := obsStroke h s.stroke_,
                 imageO := obsImage h s.image_, zIndexO := s.zIndex_ }
      | _ => none
  | _ => none

/-- Observe a descriptor sequence reference. -/
def obsSeq (h : Heap) (v : JSValue) : List (Option StyleObs) :=
  (h.arrElems v).map (obsStyle h)

/-- Observe a whole editing-style mapping. -/
def obsEditing (h : Heap) (e : EditingStyles) :
    List (List (Option StyleObs)) :=
  [obsSeq h e.polygon, obsSeq h e.multiPolygon, obsSeq h e.lineString,
   obsSeq h e.multiLineString, obsSeq h e.circleG, obsSeq h e.point,
   obsSeq h e.multiPoint, obsSeq h e.geometryCollection]

/-- `Style.prototype.getGeometry` (Style.js lines 130-132). -/
def getGeometry (s : StyleFields) : JSValue := s.geometry_

/-- `Style.prototype.getGeometryFunction` (Style.js lines 141-143). -/
def getGeometryFunction (s : StyleFields) : JSValue := s.geometryFunction_

/-- `Style.prototype.getFill` (Style.js lines 151-153). -/
def getFill (s : StyleFields) : JSValue := s.fill_

/-- `Style.prototype.getImage` (Style.js lines 171-173). -/
def getImage (s : StyleFields) : JSValue := s.image_

/-- `Style.prototype.getStroke` (Style.js lines 191-193). -/
def getStroke (s : StyleFields) : JSValue := s.stroke_

/-- `Style.prototype.getText` (Style.js lines 211-213). -/
def getText (s : StyleFields) : JSValue := s.text_

/-- `Style.prototype.getZIndex` (Style.js lines 231-233). -/
def getZIndex (s : StyleFields) : JSValue := s.zIndex_

/-- `Style.prototype.getRenderer` (Style.js lines 107-109). -/
def getRenderer (s : StyleFields) : JSValue := s.renderer_

/-- `Array.isArray(v)` as tested by `toFunction`. -/
def isArrayVal (h : Heap) (v : JSValue) : Bool :=
  match v with
  | .obj r =>
      match h.get r with
      | some (.arr _) => true
      | _ => false
  | _ => false

/-- `v instanceof Style` as asserted by `toFunction`.  This also renders
the spec's "single descriptor instance". -/
def instanceofStyle (h : Heap) (v : JSValue) : Bool :=
  match v with
  | .obj r =>
      match h.get r with
      | some (.style _) => true
      | _ => false
  | _ => false

/-- Following the spec's words, not the source (for comparison with the
source's `Array.isArray` test): "an ordered sequence of descriptors" — an
array value every element of which is a Style descriptor instance. -/
def specDescriptorSeq (h : Heap) (v : JSValue) : Bool :=
  match v with
  | .obj r =>
      match h.get r with
      | some (.arr l) => l.all (fun e => instanceofStyle h e)
      | _ => false
  | _ => false

/-- Heap evolution produced by the allocating operations: the frontier
only grows and existing objects keep their values (nothing in this module
overwrites an existing reference). -/
def HeapExtends (h h2 : Heap) : Prop :=
  h.next ≤ h2.next ∧ ∀ r o, h.get r = some o → h2.get r = some o

/-- The heap object a value refers to, if any. -/
def objAt (h : Heap) (v : JSValue) : Option Obj :=
  match v with
  | .obj r => h.get r
  | _ => none

/-- Concrete environment for witnesses: every opaque external function
returns `undefined`. -/
def env0 : Env := fun _ _ _ => .undefined

/-- Concrete feature for witnesses: one property `"geom"` holding the
object reference 7, own geometry the object reference 3. -/
def feat0 : Feature := { props := [("geom", .obj 7)], geom := .obj 3 }

/-- Concrete well-formed heap for the clone witnesses: a geometry with a
`clone` method at 0, a fill at 1, a stroke at 2, a circle image at 3, a
text at 4, and at 5 a style using all of them (built through the
constructor with a renderer and a zIndex). -/
def cloneWitnessHeap : Heap :=
  let h : Heap := {}
  let h := h.alloc (.geom true 7)
  let h := h.alloc (.fill (.str "red"))
  let h := h.alloc (.stroke (.str "blue") (numv 2))
  let h := h.alloc (.circle (numv 4) .null .null)
  let h := h.alloc (.text (.str "hi"))
  newStyle h
    { geometry := .obj 0, fill := .obj 1, image := .obj 3, stroke := .obj 2,
      text := .obj 4, renderer := .fnExtern 9, zIndex := numv 3 }

/-- The fields of the style that `cloneWitnessHeap` holds at 5. -/
def cloneWitnessOrig : StyleFields :=
  mkStyleFields
    { geometry := .obj 0, fill := .obj 1, image := .obj 3, stroke := .obj 2,
      text := .obj 4, renderer := .fnExtern 9, zIndex := numv 3 }

/-- The result of cloning the style at 5 in `cloneWitnessHeap`. -/
def cloneWitnessOut : Nat × Heap := (styleClone cloneWitnessHeap 5).getD (0, {})

/-- The geometry spec stored by the descriptor that cloning the style at
`r` produces (observation used to exhibit counterexamples). -/
def cloneGeometrySpecOf (h : Heap) (r : Nat) : Option JSValue :=
  match styleClone h r with
  | some (r2, h2) =>
      match h2.get r2 with
      | some (.style s2) => some (getGeometry s2)
      | _ => none
  | none => none

/-- A heap whose single style had `setGeometry(undefined)` applied, so its
stored geometry spec is `undefined`. -/
def undefGeomHeap : Heap :=
  Heap.alloc {} (.style (setGeometryFields (mkStyleFields {}) .undefined))

/-- The fields of the cloned style in `cloneWitnessOut`. -/
def cloneWitnessStyle : StyleFields :=
  match cloneWitnessOut.2.get cloneWitnessOut.1 with
  | some (.style s) => s
  | _ => {}

/-! ## Basic lemmas about the heap model -/

@[simp] theorem assocGet_nil (r : Nat) :
    assocGet ([] : List (Nat × α)) r = none := rfl

@[simp] theorem assocGet_cons (k : Nat) (v : α) (t : List (Nat × α)) (r : Nat) :
    assocGet ((k, v) :: t) r = if r = k then some v else assocGet t r := rfl

theorem assocGet_some_mem {l : List (Nat × α)} {r : Nat} {v : α}
    (h : assocGet l r = some v) : (r, v) ∈ l := by
  induction l with
  | nil => simp [assocGet] at h
  | cons p t ih =>
      obtain ⟨k, w⟩ := p
      rw [assocGet_cons] at h
      by_cases hk : r = k
      · subst hk
        rw [if_pos rfl] at h
        cases h
        exact List.mem_cons_self _ _
      · rw [if_neg hk] at h
        exact List.mem_cons_of_mem _ (ih h)

@[simp] theorem Heap.next_alloc (h : Heap) (o : Obj) :
    (h.alloc o).next = h.next + 1 := rfl

@[simp] theorem Heap.get_alloc (h : Heap) (o : Obj) (r : Nat) :
    (h.alloc o).get r = if r = h.next then some o else h.get r := rfl

@[simp] theorem Heap.next_set (h : Heap) (r : Nat) (o : Obj) :
    (h.set r o).next = h.next := rfl

@[simp] theorem Heap.get_set (h : Heap) (r r' : Nat) (o : Obj) :
    (h.set r o).get r' = if r' = r then some o else h.get r' := rfl

theorem Heap.get_lt_next {h : Heap} (hwf : h.wf = true) {r : Nat} {o : Obj}
    (hr : h.get r = some o) : r < h.next := by
  have hall := List.all_eq_true.mp hwf
  exact of_decide_eq_true (hall _ (assocGet_some_mem hr))

theorem Heap.wf_alloc {h : Heap} (hwf : h.wf = true) (o : Obj) :
    (h.alloc o).wf = true := by
  have hall := List.all_eq_true.mp hwf
  refine List.all_eq_true.mpr ?_
  intro p hp
  rcases List.mem_cons.mp hp with hh | ht
  · subst hh; simp
  · have := of_decide_eq_true (hall _ ht)
    exact decide_eq_true (Nat.lt_succ_of_lt this)

theorem heapExtends_refl (h : Heap) : HeapExtends h h :=
  ⟨Nat.le_refl _, fun _ _ hr => hr⟩

theorem heapExtends_trans {h1 h2 h3 : Heap}
    (a : HeapExtends h1 h2) (b : HeapExtends h2 h3) : HeapExtends h1 h3 :=
  ⟨Nat.le_trans a.1 b.1, fun r o hr => b.2 r o (a.2 r o hr)⟩

theorem heapExtends_alloc {h : Heap} (hwf : h.wf = true) (o : Obj) :
    HeapExtends h (h.alloc o) := by
  refine ⟨Nat.le_succ _, fun r ob hr => ?_⟩
  have hlt := Heap.get_lt_next hwf hr
  rw [Heap.get_alloc, if_neg (Nat.ne_of_lt hlt)]
  exact hr

/-! ## Characterization of the clone steps -/

theorem cloneValue_eq_some {h : Heap} {v v2 : JSValue} {h2 : Heap}
    (hcv : cloneValue h v = some (v2, h2)) :
    ∃ r o oc, v = .obj r ∧ h.get r = some o ∧ cloneObj o = some oc ∧
      v2 = .obj h.next ∧ h2 = h.alloc oc := by
  cases v <;>
    try (simp only [cloneValue] at hcv; exact Option.noConfusion hcv)
  case obj r =>
    simp only [cloneValue] at hcv
    cases hor : h.get r with
    | none =>
        simp only [hor] at hcv
        exact Option.noConfusion hcv
    | some o =>
        simp only [hor] at hcv
        cases hoc : cloneObj o with
        | none =>
            simp only [hoc] at hcv
            exact Option.noConfusion hcv
        | some oc =>
            simp only [hoc, Option.some.injEq, Prod.mk.injEq] at hcv
            exact ⟨r, o, oc, rfl, hor, hoc, hcv.1.symm, hcv.2.symm⟩

theorem geometryCloneStep_eq_some {h : Heap} {g g2 : JSValue} {h2 : Heap}
    (hgs : geometryCloneStep h g = some (g2, h2)) :
    ((g.truthy && hasCloneProp h g) = false ∧ g2 = g ∧ h2 = h) ∨
    ((g.truthy && hasCloneProp h g) = true ∧
      cloneValue h g = some (g2, h2)) := by
  unfold geometryCloneStep at hgs
  cases hb : (g.truthy && hasCloneProp h g) with
  | false =>
      simp only [hb, Bool.false_eq_true, if_false, Option.some.injEq,
        Prod.mk.injEq] at hgs
      exact .inl ⟨rfl, hgs.1.symm, hgs.2.symm⟩
  | true =>
      simp only [hb, if_true] at hgs
      exact .inr ⟨rfl, hgs⟩

theorem cloneField_eq_some {h : Heap} {v f : JSValue} {h2 : Heap}
    (hcf : cloneField h v = some (f, h2)) :
    (v.truthy = false ∧ f = .undefined ∧ h2 = h) ∨
    (v.truthy = true ∧ cloneValue h v = some (f, h2)) := by
  unfold cloneField at hcf
  cases hb : v.truthy with
  | false =>
      simp only [hb, Bool.false_eq_true, if_false, Option.some.injEq,
        Prod.mk.injEq] at hcf
      exact .inl ⟨rfl, hcf.1.symm, hcf.2.symm⟩
  | true =>
      simp only [hb, if_true] at hcf
      exact .inr ⟨rfl, hcf⟩

theorem cloneValue_extends {h : Heap} {v v2 : JSValue} {h2 : Heap}
    (hwf : h.wf = true) (hcv : cloneValue h v = some (v2, h2)) :
    HeapExtends h h2 ∧ h2.wf = true := by
  obtain ⟨r, o, oc, hv, hor, hoc, hv2, hh2⟩ := cloneValue_eq_some hcv
  subst hh2
  exact ⟨heapExtends_alloc hwf oc, Heap.wf_alloc hwf oc⟩

theorem geometryCloneStep_extends {h : Heap} {g g2 : JSValue} {h2 : Heap}
    (hwf : h.wf = true) (hgs : geometryCloneStep h g = some (g2, h2)) :
    HeapExtends h h2 ∧ h2.wf = true := by
  rcases geometryCloneStep_eq_some hgs with ⟨_, _, rfl⟩ | ⟨_, hcv⟩
  · exact ⟨heapExtends_refl _, hwf⟩
  · exact cloneValue_extends hwf hcv

theorem cloneField_extends {h : Heap} {v f : JSValue} {h2 : Heap}
    (hwf : h.wf = true) (hcf : cloneField h v = some (f, h2)) :
    HeapExtends h h2 ∧ h2.wf = true := by
  rcases cloneField_eq_some hcf with ⟨_, _, rfl⟩ | ⟨_, hcv⟩
  · exact ⟨heapExtends_refl _, hwf⟩
  · exact cloneValue_extends hwf hcv

/-! ## Projections of a constructed style -/

theorem mkStyleFields_zIndex (o : StyleOptions) :
    (mkStyleFields o).zIndex_ = o.zIndex := rfl

theorem mkStyleFields_fill (o : StyleOptions) :
    (mkStyleFields o).fill_ =
      if o.fill ≠ .undefined then o.fill else .null := rfl

theorem mkStyleFields_image (o : StyleOptions) :
    (mkStyleFields o).image_ =
      if o.image ≠ .undefined then o.image else .null := rfl

theorem mkStyleFields_stroke (o : StyleOptions) :
    (mkStyleFields o).stroke_ =
      if o.stroke ≠ .undefined then o.stroke else .null := rfl

theorem mkStyleFields_text (o : StyleOptions) :
    (mkStyleFields o).text_ =
      if o.text ≠ .undefined then o.text else .null := rfl

/-! ## Lemmas about `setGeometry` -/

theorem setGeometryFields_geometry (s : StyleFields) (x : JSValue) :
    (setGeometryFields s x).geometry_ = x := by
  cases x <;> simp [setGeometryFields]

theorem mkStyleFields_geometry (o : StyleOptions) :
    (mkStyleFields o).geometry_ =
      if o.geometry ≠ .undefined then o.geometry else .null := by
  by_cases hgo : o.geometry = .undefined
  · simp [mkStyleFields, hgo]
  · simp [mkStyleFields, hgo, setGeometryFields_geometry]

/-- The derived resolver depends only on the argument, never on the prior
state of the style. -/
theorem setGeometryFields_resolver_congr (s t : StyleFields) (x : JSValue) :
    (setGeometryFields s x).geometryFunction_ =
      (setGeometryFields t x).geometryFunction_ := by
  cases x <;>
    simp [setGeometryFields, JSValue.isFunction, JSValue.truthy,
      JSNum.truthy] <;>
  first
  | rfl
  | (split <;> rfl)

theorem isFunction_setGeometryFields (s : StyleFields) (x : JSValue) :
    (setGeometryFields s x).geometryFunction_.isFunction = true := by
  cases x with
  | undefined => rfl
  | null => rfl
  | boolean b => cases b <;> rfl
  | number n =>
      cases n with
      | qr q =>
          by_cases hq : q = 0 <;>
            simp [setGeometryFields, JSValue.isFunction, JSValue.truthy,
              JSNum.truthy, hq]
      | inf => rfl
      | negInf => rfl
      | nan => rfl
  | str name => rfl
  | obj r => rfl
  | fnExtern i => rfl
  | fnDefaultGeometry => rfl
  | fnGeomProp name => rfl
  | fnGeomConst v => rfl
  | fnStylesClosure r => rfl

theorem isFunction_applyOp (s : StyleFields) (op : StyleOp)
    (hs : s.geometryFunction_.isFunction = true) :
    (applyOp s op).geometryFunction_.isFunction = true := by
  cases op with
  | opSetGeometry g => exact isFunction_setGeometryFields s g
  | opSetFill v => exact hs
  | opSetImage v => exact hs
  | opSetRenderer v => exact hs
  | opSetStroke v => exact hs
  | opSetText v => exact hs
  | opSetZIndex v => exact hs

theorem isFunction_applyOps (s : StyleFields) (ops : List StyleOp)
    (hs : s.geometryFunction_.isFunction = true) :
    (applyOps s ops).geometryFunction_.isFunction = true := by
  induction ops generalizing s with
  | nil => exact hs
  | cons op t ih => exact ih _ (isFunction_applyOp s op hs)

theorem isFunction_mkStyleFields (options : StyleOptions) :
    (mkStyleFields options).geometryFunction_.isFunction = true := by
  simp only [mkStyleFields]
  split
  · exact isFunction_setGeometryFields _ _
  · rfl

/-! ## The claims -/

/-- C4: for every Style descriptor and every value x, after
`setGeometry(x)` the getter `getGeometry()` returns exactly x (the raw
spec is stored verbatim, for x absent, a property-name string, a fixed
geometry value or a resolver function alike), and the stored spec and the
derived resolver are overwritten together consistently by the same call:
the resulting `(geometry_, geometryFunction_)` pair depends only on x,
never on the descriptor's prior state. -/
theorem claim_C4 (s t : StyleFields) (x : JSValue) :
    getGeometry (setGeometryFields s x) = x ∧
    getGeometry (setGeometryFields s x) = getGeometry (setGeometryFields t x) ∧
    getGeometryFunction (setGeometryFields s x) =
      getGeometryFunction (setGeometryFields t x) := by
  refine ⟨setGeometryFields_geometry s x, ?_, ?_⟩
  · rw [getGeometry, getGeometry, setGeometryFields_geometry,
      setGeometryFields_geometry]
  · exact setGeometryFields_resolver_congr s t x

/-- C1 counterexample: the claim states that every absent/falsy spec
installs the default resolver.  The empty string is falsy in JavaScript,
yet `setGeometry('')` takes the string branch and installs the
property-lookup resolver for the empty property name, which behaves
differently from the default resolver on a feature that has its own
geometry but no `""` property. -/
theorem claim_C1_counterexample :
    (JSValue.str "").truthy = false ∧
    getGeometryFunction (setGeometryFields {} (.str "")) ≠
      defaultGeometryFunction ∧
    applyFn env0 (getGeometryFunction (setGeometryFields {} (.str "")))
      feat0 .undefined = .undefined ∧
    applyFn env0 defaultGeometryFunction feat0 .undefined = .obj 3 := by
  refine ⟨rfl, ?_, rfl, rfl⟩
  decide

/-- C1 (amended): `setGeometry(spec)` derives the resolver at set-time
with the function and string branches taking precedence over the falsy
test: a function spec is installed as the resolver directly; a string spec
(including the falsy empty string) installs a resolver returning
`feature.get(thatString)`; any other falsy spec installs the default
resolver returning `feature.getGeometry()`; any other truthy value
installs a resolver that ignores its feature argument and always returns
that fixed value. -/
theorem claim_C1_amended (s : StyleFields) (x : JSValue) (env : Env)
    (feature : Feature) (res : JSValue) :
    (x.isFunction = true →
      getGeometryFunction (setGeometryFields s x) = x) ∧
    (∀ name, x = .str name →
      getGeometryFunction (setGeometryFields s x) = .fnGeomProp name ∧
      applyFn env (getGeometryFunction (setGeometryFields s x)) feature res =
        feature.get name) ∧
    (x.truthy = false → x.isString = false →
      getGeometryFunction (setGeometryFields s x) = defaultGeometryFunction ∧
      applyFn env (getGeometryFunction (setGeometryFields s x)) feature res =
        feature.getGeometry) ∧
    (x.truthy = true → x.isString = false → x.isFunction = false →
      getGeometryFunction (setGeometryFields s x) = .fnGeomConst x ∧
      ∀ f2 : Feature, applyFn env
        (getGeometryFunction (setGeometryFields s x)) f2 res = x) := by
  refine ⟨?_, ?_, ?_, ?_⟩
  · intro hf
    cases x <;> simp_all [setGeometryFields, JSValue.isFunction,
      getGeometryFunction]
  · intro name hx
    subst hx
    simp [setGeometryFields, JSValue.isFunction, getGeometryFunction, applyFn]
  · intro hfalsy hstr
    cases x <;> simp_all [setGeometryFields, JSValue.isFunction,
      JSValue.isString, JSValue.truthy, getGeometryFunction, applyFn,
      defaultGeometryFunction]
  · intro htruthy hstr hfn
    cases x <;> simp_all [setGeometryFields, JSValue.isFunction,
      JSValue.isString, JSValue.truthy, getGeometryFunction, applyFn]

/-- C1 witness: the amended theorem applied at the property-name string
`"geom"` and at the fixed value `7`. -/
theorem claim_C1_amended_witness :
    (getGeometryFunction (setGeometryFields {} (.str "geom")) =
        .fnGeomProp "geom" ∧
      applyFn env0 (getGeometryFunction (setGeometryFields {} (.str "geom")))
        feat0 .undefined = feat0.get "geom") ∧
    (getGeometryFunction (setGeometryFields {} (numv 7)) =
        .fnGeomConst (numv 7) ∧
      applyFn env0 (getGeometryFunction (setGeometryFields {} (numv 7)))
        feat0 .undefined = numv 7) := by
  constructor
  · exact (claim_C1_amended {} (.str "geom") env0 feat0 .undefined).2.1 "geom" rfl
  · refine ((claim_C1_amended {} (numv 7) env0 feat0 .undefined).2.2.2
      (by decide) (by decide) (by decide)).imp id ?_
    intro ha
    exact ha feat0

/-- C9 counterexample: the claim states that `setGeometry` with any
absent/falsy value resets the resolver to the default one returning the
feature's own geometry.  The empty string is falsy, yet after
`setGeometry('')` on a freshly constructed style the resolver is the
property-lookup resolver, and on a feature owning a geometry but no `""`
property it returns `undefined` instead of that geometry. -/
theorem claim_C9_counterexample :
    (JSValue.str "").truthy = false ∧
    getGeometryFunction
        (applyOps (mkStyleFields {}) [.opSetGeometry (.str "")]) ≠
      defaultGeometryFunction ∧
    applyFn env0
      (getGeometryFunction
        (applyOps (mkStyleFields {}) [.opSetGeometry (.str "")]))
      feat0 .undefined = .undefined ∧
    feat0.getGeometry = .obj 3 := by
  refine ⟨rfl, ?_, rfl, rfl⟩
  decide

/-- C9 (amended): every Style descriptor always has a geometry resolver —
`getGeometryFunction()` returns a function value after construction with
any (or no) options and after any sequence of setter calls; when no
geometry spec is configured, or `setGeometry` is called with an
absent/falsy non-string value (the falsy empty string instead installs the
property-lookup resolver), the resolver is the default one returning the
feature's own geometry. -/
theorem claim_C9_amended (options : StyleOptions) (ops : List StyleOp)
    (s : StyleFields) (g : JSValue) (env : Env) (feature : Feature)
    (res : JSValue) :
    (getGeometryFunction (applyOps (mkStyleFields options) ops)).isFunction
        = true ∧
    (options.geometry = .undefined →
      getGeometryFunction (mkStyleFields options) = defaultGeometryFunction) ∧
    (g.truthy = false → g.isString = false →
      getGeometryFunction (setGeometryFields s g) = defaultGeometryFunction) ∧
    applyFn env defaultGeometryFunction feature res = feature.getGeometry := by
  refine ⟨isFunction_applyOps _ _ (isFunction_mkStyleFields options), ?_, ?_, rfl⟩
  · intro hg
    simp [mkStyleFields, getGeometryFunction, hg, defaultGeometryFunction]
  · intro hfalsy hstr
    cases g <;> simp_all [setGeometryFields, JSValue.isFunction,
      JSValue.isString, JSValue.truthy, getGeometryFunction,
      defaultGeometryFunction]

/-- C9 witness: the amended theorem applied to a default-constructed
style, the empty setter sequence, and `setGeometry(null)`. -/
theorem claim_C9_amended_witness :
    (getGeometryFunction (applyOps (mkStyleFields {}) [])).isFunction = true ∧
    getGeometryFunction (mkStyleFields {}) = defaultGeometryFunction ∧
    getGeometryFunction (setGeometryFields {} .null) =
      defaultGeometryFunction ∧
    applyFn env0 defaultGeometryFunction feat0 .undefined =
      feat0.getGeometry := by
  have h := claim_C9_amended {} [] {} .null env0 feat0 .undefined
  exact ⟨h.1, h.2.1 rfl, h.2.2.1 rfl rfl, h.2.2.2⟩

/-- C8 counterexample: the claim states that any input which is none of
{function, sequence of descriptors, single descriptor} raises the
contract-violation error.  An array holding the number 42 is not a
sequence of descriptors (nor a function, nor a descriptor), yet
`toFunction` accepts it — only array-ness is tested, the elements are
never validated. -/
theorem claim_C8_counterexample :
    (JSValue.obj 0).isFunction = false ∧
    specDescriptorSeq (Heap.alloc {} (.arr [numv 42])) (.obj 0) = false ∧
    instanceofStyle (Heap.alloc {} (.arr [numv 42])) (.obj 0) = false ∧
    toFunction (Heap.alloc {} (.arr [numv 42])) (.obj 0) =
      .ok (.fnStylesClosure 0, Heap.alloc {} (.arr [numv 42])) :=
  ⟨rfl, rfl, rfl, rfl⟩

/-- C8 (amended): `toFunction` returns a function input unchanged
(identity-preserved, heap untouched); wraps any array input — without
validating its elements — in a resolver that returns that same sequence
reference regardless of arguments; wraps a single Style descriptor in a
resolver returning a freshly allocated one-element sequence containing
exactly it; and for any input that is neither a function nor an array nor
a Style instance (e.g. the number 42) fails with the contract-violation
error carrying the fixed diagnostic code 41, without returning a
resolver. -/
theorem claim_C8_amended (h : Heap) (o : JSValue) (env : Env) :
    (o.isFunction = true → toFunction h o = .ok (o, h)) ∧
    (∀ r l, o = .obj r → h.get r = some (.arr l) →
      toFunction h o = .ok (.fnStylesClosure r, h) ∧
      ∀ f res, applyFn env (.fnStylesClosure r) f res = .obj r) ∧
    (∀ r s, o = .obj r → h.get r = some (.style s) →
      toFunction h o = .ok (.fnStylesClosure h.next, h.alloc (.arr [o])) ∧
      (h.alloc (.arr [o])).get h.next = some (.arr [o]) ∧
      ∀ f res, applyFn env (.fnStylesClosure h.next) f res = .obj h.next) ∧
    (o.isFunction = false → isArrayVal h o = false →
      instanceofStyle h o = false → toFunction h o = .error 41) := by
  refine ⟨?_, ?_, ?_, ?_⟩
  · intro hf
    simp [toFunction, hf]
  · intro r l ho hget
    subst ho
    simp [toFunction, JSValue.isFunction, hget, applyFn]
  · intro r s ho hget
    subst ho
    simp [toFunction, JSValue.isFunction, hget, applyFn]
  · intro h1 h2 h3
    cases o <;> simp_all [toFunction, JSValue.isFunction]
    case obj r =>
      cases hg : h.get r with
      | none => simp [hg]
      | some ob =>
          cases ob <;> simp_all [isArrayVal, instanceofStyle, hg]

/-- C8 witness: the amended theorem applied to a function input, an array
input, a Style-instance input, and the number 42. -/
theorem claim_C8_amended_witness :
    toFunction (Heap.alloc {} (.arr [])) (.fnExtern 1) =
      .ok (.fnExtern 1, Heap.alloc {} (.arr [])) ∧
    toFunction (Heap.alloc {} (.arr [])) (.obj 0) =
      .ok (.fnStylesClosure 0, Heap.alloc {} (.arr [])) ∧
    toFunction cloneWitnessHeap (.obj 5) =
      .ok (.fnStylesClosure 6, cloneWitnessHeap.alloc (.arr [.obj 5])) ∧
    toFunction (Heap.alloc {} (.arr [])) (numv 42) = .error 41 := by
  refine ⟨?_, ?_, ?_, ?_⟩
  · exact (claim_C8_amended (Heap.alloc {} (.arr [])) (.fnExtern 1) env0).1 rfl
  · exact ((claim_C8_amended (Heap.alloc {} (.arr [])) (.obj 0) env0).2.1
      0 [] rfl rfl).1
  · exact ((claim_C8_amended cloneWitnessHeap (.obj 5) env0).2.2.1
      5 _ rfl rfl).1
  · exact (claim_C8_amended (Heap.alloc {} (.arr [])) (numv 42) env0).2.2.2
      rfl rfl rfl

/-- C10: for array and single-descriptor inputs the resolver built by
`toFunction` returns the identical sequence reference on every invocation
and ignores its feature and resolution arguments.  For an array input the
heap is left untouched and the resolver returns the caller's original
array reference, so a later in-place mutation of that array is observable
through the reference the resolver returns.  For a single descriptor the
one-element array is allocated exactly once, by `toFunction` itself (the
heap grows by exactly that one array), and calling the resolver allocates
nothing. -/
theorem claim_C10 (h : Heap) (o : JSValue) (env : Env) :
    (∀ r l, o = .obj r → h.get r = some (.arr l) →
      toFunction h o = .ok (.fnStylesClosure r, h) ∧
      (∀ f res, applyFn env (.fnStylesClosure r) f res = .obj r) ∧
      (∀ l2, (h.set r (.arr l2)).get r = some (.arr l2) ∧
        ∀ f res, applyFn env (.fnStylesClosure r) f res = .obj r)) ∧
    (∀ r s, o = .obj r → h.get r = some (.style s) →
      toFunction h o = .ok (.fnStylesClosure h.next, h.alloc (.arr [o])) ∧
      (h.alloc (.arr [o])).get h.next = some (.arr [o]) ∧
      (h.alloc (.arr [o])).next = h.next + 1 ∧
      ∀ f res, applyFn env (.fnStylesClosure h.next) f res = .obj h.next) := by
  constructor
  · intro r l ho hget
    subst ho
    refine ⟨?_, fun f res => rfl, fun l2 => ⟨?_, fun f res => rfl⟩⟩
    · simp [toFunction, JSValue.isFunction, hget]
    · simp
  · intro r s ho hget
    subst ho
    refine ⟨?_, by simp, rfl, fun f res => rfl⟩
    simp [toFunction, JSValue.isFunction, hget]

/-- C10 witness: the theorem applied to a concrete one-element array and
to the concrete style at 5 of `cloneWitnessHeap`.  The mutation clause is
exercised by overwriting the array at 0 with an empty one. -/
theorem claim_C10_witness :
    (toFunction (Heap.alloc {} (.arr [numv 1])) (.obj 0) =
      .ok (.fnStylesClosure 0, Heap.alloc {} (.arr [numv 1]))) ∧
    applyFn env0 (.fnStylesClosure 0) feat0 .undefined = .obj 0 ∧
    ((Heap.alloc {} (.arr [numv 1])).set 0 (.arr [])).get 0 =
      some (.arr []) ∧
    toFunction cloneWitnessHeap (.obj 5) =
      .ok (.fnStylesClosure 6, cloneWitnessHeap.alloc (.arr [.obj 5])) ∧
    (cloneWitnessHeap.alloc (.arr [.obj 5])).get 6 =
      some (.arr [.obj 5]) := by
  have ha := (claim_C10 (Heap.alloc {} (.arr [numv 1])) (.obj 0) env0).1
    0 [numv 1] rfl rfl
  have hs := (claim_C10 cloneWitnessHeap (.obj 5) env0).2 5 _ rfl rfl
  exact ⟨ha.1, ha.2.1 feat0 .undefined, (ha.2.2 []).1, hs.1, hs.2.1⟩

/-- C3: `clone()` never carries over the custom renderer — whatever style
`styleClone` is applied to (with or without a renderer set), the cloned
descriptor's `getRenderer()` is absent (`null`), because the clone is
built from an options record that never mentions the renderer. -/
theorem claim_C3 (h : Heap) (r r' : Nat) (h2 : Heap) (s' : StyleFields)
    (hc : styleClone h r = some (r', h2))
    (hs' : h2.get r' = some (.style s')) :
    getRenderer s' = .null := by
  unfold styleClone at hc
  split at hc
  case _ s heq =>
    split at hc
    case _ g h1 hg =>
      split at hc
      case _ f hf2 hf =>
        split at hc
        case _ img h3 himg =>
          split at hc
          case _ st h4 hst =>
            split at hc
            case _ t h5 ht =>
              simp only [Option.some.injEq, Prod.mk.injEq] at hc
              obtain ⟨hr', hh2⟩ := hc
              subst hr'
              subst hh2
              rw [newStyle, Heap.get_alloc, if_pos rfl] at hs'
              cases hs'
              rfl
            case _ => exact absurd hc (by simp)
          case _ => exact absurd hc (by simp)
        case _ => exact absurd hc (by simp)
      case _ => exact absurd hc (by simp)
    case _ => exact absurd hc (by simp)
  case _ => exact absurd hc (by simp)

/-- C3 witness: the theorem applied to the concrete clone of the style at
5 in `cloneWitnessHeap`, which does have a renderer set. -/
theorem claim_C3_witness : getRenderer cloneWitnessStyle = .null :=
  claim_C3 cloneWitnessHeap 5 cloneWitnessOut.1 cloneWitnessOut.2
    cloneWitnessStyle rfl rfl

/-- C5: from a state whose cache is still `null`, `createDefaultStyle`
builds (writing n for the first fresh reference) the fill at n with color
`rgba(255,255,255,0.4)` (translucent white, alpha 0.4), the stroke at n+1
with color `#3399CC` and width 1.25, the circle image of radius 5 at n+2
over exactly those fill and stroke references, the single descriptor at
n+3 whose own fill/stroke/image are those same references, and the
one-element sequence at n+4; the call's arguments are ignored (any
arguments give the identical result), and every subsequent call returns
the identical sequence reference and leaves the state untouched. -/
theorem claim_C5 (st : ModuleState) (feature f2 f3 : Feature)
    (resolution r2 r3 : JSValue) (hst : st.defaultStyles = .null) :
    (createDefaultStyle feature resolution st).1 =
      .obj (st.heap.next + 4) ∧
    createDefaultStyle f2 r2 st = createDefaultStyle feature resolution st ∧
    (createDefaultStyle feature resolution st).2.heap.get
        (st.heap.next + 4) = some (.arr [.obj (st.heap.next + 3)]) ∧
    (createDefaultStyle feature resolution st).2.heap.get
        (st.heap.next + 3) = some (.style (mkStyleFields
          { image := .obj (st.heap.next + 2), fill := .obj st.heap.next,
            stroke := .obj (st.heap.next + 1) })) ∧
    getFill (mkStyleFields
      { image := .obj (st.heap.next + 2), fill := .obj st.heap.next,
        stroke := .obj (st.heap.next + 1) }) = .obj st.heap.next ∧
    getStroke (mkStyleFields
      { image := .obj (st.heap.next + 2), fill := .obj st.heap.next,
        stroke := .obj (st.heap.next + 1) }) = .obj (st.heap.next + 1) ∧
    getImage (mkStyleFields
      { image := .obj (st.heap.next + 2), fill := .obj st.heap.next,
        stroke := .obj (st.heap.next + 1) }) = .obj (st.heap.next + 2) ∧
    (createDefaultStyle feature resolution st).2.heap.get
        (st.heap.next + 2) = some (.circle (numv 5) (.obj st.heap.next)
          (.obj (st.heap.next + 1))) ∧
    (createDefaultStyle feature resolution st).2.heap.get st.heap.next =
      some (.fill (.str "rgba(255,255,255,0.4)")) ∧
    (createDefaultStyle feature resolution st).2.heap.get
        (st.heap.next + 1) = some (.stroke (.str "#3399CC") (numv 1.25)) ∧
    createDefaultStyle f3 r3 (createDefaultStyle feature resolution st).2 =
      ((createDefaultStyle feature resolution st).1,
        (createDefaultStyle feature resolution st).2) := by
  refine ⟨?_, rfl, ?_, ?_, rfl, rfl, rfl, ?_, ?_, ?_, ?_⟩ <;>
    simp [createDefaultStyle, hst, newStyle, JSValue.truthy, JSNum.truthy,
      add_assoc, add_right_inj, add_right_eq_self, self_eq_add_right]

/-- C5 witness: the theorem applied to the initial module state and
concrete features. -/
theorem claim_C5_witness :
    (createDefaultStyle feat0 .undefined {}).1 = .obj 4 ∧
    createDefaultStyle feat0 (numv 9) {} = createDefaultStyle feat0 .undefined {} ∧
    (createDefaultStyle feat0 .undefined {}).2.heap.get 2 =
      some (.circle (numv 5) (.obj 0) (.obj 1)) ∧
    (createDefaultStyle feat0 .undefined {}).2.heap.get 0 =
      some (.fill (.str "rgba(255,255,255,0.4)")) ∧
    (createDefaultStyle feat0 .undefined {}).2.heap.get 1 =
      some (.stroke (.str "#3399CC") (numv 1.25)) ∧
    createDefaultStyle feat0 (numv 2) (createDefaultStyle feat0 .undefined {}).2 =
      ((createDefaultStyle feat0 .undefined {}).1,
        (createDefaultStyle feat0 .undefined {}).2) := by
  have h := claim_C5 {} feat0 feat0 feat0 .undefined (numv 9) (numv 2) rfl
  exact ⟨h.1, h.2.1, h.2.2.2.2.2.2.2.1, h.2.2.2.2.2.2.2.2.1,
    h.2.2.2.2.2.2.2.2.2.1, h.2.2.2.2.2.2.2.2.2.2⟩

theorem JSValue_obj_ne_undef (r : Nat) : JSValue.obj r ≠ JSValue.undefined :=
  fun hh => JSValue.noConfusion hh

/-- C7: in every mapping returned by `createEditingStyle` (base width 3),
the line-string sequence is exactly two descriptors in paint order: first
an opaque white stroke of width 5, then a blue stroke of width 3; and the
point sequence is one descriptor whose circular marker has radius 6, blue
fill and white stroke of width 1.5, with `zIndex` equal to `Infinity`
(the unbounded maximum sentinel). -/
theorem claim_C7 (h : Heap) :
    obsSeq (createEditingStyle h).2 (createEditingStyle h).1.lineString =
      [some { fillO := none,
              strokeO := some ([numv 255, numv 255, numv 255, numv 1], numv 5),
              imageO := none, zIndexO := .undefined },
       some { fillO := none,
              strokeO := some ([numv 0, numv 153, numv 255, numv 1], numv 3),
              imageO := none, zIndexO := .undefined }] ∧
    obsSeq (createEditingStyle h).2 (createEditingStyle h).1.point =
      [some { fillO := none, strokeO := none,
              imageO := some (numv 6,
                some [numv 0, numv 153, numv 255, numv 1],
                some ([numv 255, numv 255, numv 255, numv 1], numv 1.5)),
              zIndexO := .number .inf }] := by
  constructor <;>
    norm_num [createEditingStyle, newStyle, mkStyleFields, obsSeq, obsStyle,
      obsFill, obsStroke, obsImage, Heap.arrElems, numv, add_assoc,
      add_right_inj, add_right_eq_self, self_eq_add_right,
      JSValue_obj_ne_undef]

/-- C6: `createEditingStyle` allocates fresh state on every call — the
corresponding entries of two successive calls are never identity-equal,
though equal in content (their full dereferenced observations agree) —
while within one call's mapping the multi-polygon, multi-line-string and
multi-point entries are the identical sequence references as the polygon,
line-string and point entries; the circle entry is a fresh sequence (a
reference distinct from both operands) whose elements are the polygon
elements followed by the line-string elements, of length 3; and the
geometry-collection entry concatenates polygon, line-string and point
elements, of length 4. -/
theorem claim_C6 (h : Heap) :
    (createEditingStyle h).1.multiPolygon = (createEditingStyle h).1.polygon ∧
    (createEditingStyle h).1.multiLineString =
      (createEditingStyle h).1.lineString ∧
    (createEditingStyle h).1.multiPoint = (createEditingStyle h).1.point ∧
    (createEditingStyle h).1.circleG ≠ (createEditingStyle h).1.polygon ∧
    (createEditingStyle h).1.circleG ≠ (createEditingStyle h).1.lineString ∧
    (createEditingStyle h).2.arrElems (createEditingStyle h).1.circleG =
      (createEditingStyle h).2.arrElems (createEditingStyle h).1.polygon ++
        (createEditingStyle h).2.arrElems (createEditingStyle h).1.lineString ∧
    ((createEditingStyle h).2.arrElems
      (createEditingStyle h).1.circleG).length = 3 ∧
    (createEditingStyle h).2.arrElems
        (createEditingStyle h).1.geometryCollection =
      (createEditingStyle h).2.arrElems (createEditingStyle h).1.polygon ++
        (createEditingStyle h).2.arrElems (createEditingStyle h).1.lineString ++
        (createEditingStyle h).2.arrElems (createEditingStyle h).1.point ∧
    ((createEditingStyle h).2.arrElems
      (createEditingStyle h).1.geometryCollection).length = 4 ∧
    (createEditingStyle (createEditingStyle h).2).1.polygon ≠
      (createEditingStyle h).1.polygon ∧
    (createEditingStyle (createEditingStyle h).2).1.lineString ≠
      (createEditingStyle h).1.lineString ∧
    (createEditingStyle (createEditingStyle h).2).1.circleG ≠
      (createEditingStyle h).1.circleG ∧
    (createEditingStyle (createEditingStyle h).2).1.point ≠
      (createEditingStyle h).1.point ∧
    (createEditingStyle (createEditingStyle h).2).1.geometryCollection ≠
      (createEditingStyle h).1.geometryCollection ∧
    obsEditing (createEditingStyle (createEditingStyle h).2).2
        (createEditingStyle h).1 =
      obsEditing (createEditingStyle (createEditingStyle h).2).2
        (createEditingStyle (createEditingStyle h).2).1 := by
  refine ⟨rfl, rfl, rfl, ?_, ?_, ?_, ?_, ?_, ?_, ?_, ?_, ?_, ?_, ?_, ?_⟩ <;>
    norm_num [createEditingStyle, newStyle, mkStyleFields, obsEditing,
      obsSeq, obsStyle, obsFill, obsStroke, obsImage, Heap.arrElems, numv,
      add_assoc, add_right_inj, add_right_eq_self, self_eq_add_right,
      JSValue_obj_ne_undef]

/-- C2 counterexample: the claim states that a geometry spec without a
clone capability is reused by reference (returned unchanged in the
clone).  A style whose stored spec is `undefined` (after
`setGeometry(undefined)`) has no clone capability, yet its clone stores
`null`: the clone's constructor skips `setGeometry` for an `undefined`
option, leaving the initial `null`, so the spec value is not reused. -/
theorem claim_C2_counterexample :
    getGeometry (setGeometryFields (mkStyleFields {}) .undefined) = .undefined ∧
    undefGeomHeap.get 0 =
      some (.style (setGeometryFields (mkStyleFields {}) .undefined)) ∧
    hasCloneProp undefGeomHeap .undefined = false ∧
    cloneGeometrySpecOf undefGeomHeap 0 = some .null ∧
    JSValue.null ≠ JSValue.undefined :=
  ⟨rfl, rfl, rfl, rfl, fun hh => JSValue.noConfusion hh⟩

/-- C2 (amended): `clone()` returns a new descriptor in which the
geometry spec is deep-copied exactly when the stored value exposes a
clone capability and is otherwise reused as-is — except that a stored
`undefined` spec is normalized to `null` by the clone's constructor (both
denote the absent spec); each of fill, image, stroke, text is cloned to
an independent instance when present (a fresh reference whose contents
equal the original's, and mutating the clone's copy does not affect the
original's) and remains absent when absent; and zIndex is copied by
value. -/
theorem claim_C2_amended (h : Heap) (r r' : Nat) (h' : Heap)
    (s s' : StyleFields)
    (hwf : h.wf = true)
    (hr : h.get r = some (.style s))
    (hc : styleClone h r = some (r', h'))
    (hs' : h'.get r' = some (.style s')) :
    getZIndex s' = getZIndex s ∧
    ((s.geometry_.truthy = false ∨ hasCloneProp h s.geometry_ = false) →
      s.geometry_ ≠ .undefined → s'.geometry_ = s.geometry_) ∧
    (s.geometry_ = .undefined → s'.geometry_ = .null) ∧
    (∀ gr p, s.geometry_ = .obj gr → h.get gr = some (.geom true p) →
      s'.geometry_ ≠ s.geometry_ ∧
      objAt h' s'.geometry_ = some (.geom true p) ∧
      objAt h' s.geometry_ = some (.geom true p)) ∧
    (s.fill_ = .null → s'.fill_ = .null) ∧
    (s.image_ = .null → s'.image_ = .null) ∧
    (s.stroke_ = .null → s'.stroke_ = .null) ∧
    (s.text_ = .null → s'.text_ = .null) ∧
    (∀ fr c, s.fill_ = .obj fr → h.get fr = some (.fill c) →
      s'.fill_ ≠ s.fill_ ∧
      objAt h' s'.fill_ = some (.fill c) ∧
      objAt h' s.fill_ = some (.fill c) ∧
      ∀ r2 c2, s'.fill_ = .obj r2 →
        objAt (fillSetColor h' r2 c2) s.fill_ = some (.fill c)) ∧
    (∀ ir rad fv sv, s.image_ = .obj ir →
      h.get ir = some (.circle rad fv sv) →
      s'.image_ ≠ s.image_ ∧
      objAt h' s'.image_ = some (.circle rad fv sv) ∧
      objAt h' s.image_ = some (.circle rad fv sv)) ∧
    (∀ sr c w, s.stroke_ = .obj sr → h.get sr = some (.stroke c w) →
      s'.stroke_ ≠ s.stroke_ ∧
      objAt h' s'.stroke_ = some (.stroke c w) ∧
      objAt h' s.stroke_ = some (.stroke c w)) ∧
    (∀ tr p, s.text_ = .obj tr → h.get tr = some (.text p) →
      s'.text_ ≠ s.text_ ∧
      objAt h' s'.text_ = some (.text p) ∧
      objAt h' s.text_ = some (.text p)) := by
  simp only [styleClone, hr] at hc
  cases hg : geometryCloneStep h s.geometry_ with
  | none => rw [hg] at hc; simp at hc
  | some pg =>
  obtain ⟨g, h1⟩ := pg
  simp only [hg] at hc
  cases hfF : cloneField h1 s.fill_ with
  | none => rw [hfF] at hc; simp at hc
  | some pf =>
  obtain ⟨f, h2⟩ := pf
  simp only [hfF] at hc
  cases hfI : cloneField h2 s.image_ with
  | none => rw [hfI] at hc; simp at hc
  | some pi2 =>
  obtain ⟨img, h3⟩ := pi2
  simp only [hfI] at hc
  cases hfS : cloneField h3 s.stroke_ with
  | none => rw [hfS] at hc; simp at hc
  | some ps =>
  obtain ⟨st, h4⟩ := ps
  simp only [hfS] at hc
  cases hfT : cloneField h4 s.text_ with
  | none => rw [hfT] at hc; simp at hc
  | some pt =>
  obtain ⟨t, h5⟩ := pt
  simp only [hfT, Option.some.injEq, Prod.mk.injEq] at hc
  obtain ⟨hrr, hhh⟩ := hc
  subst hrr
  subst hhh
  rw [newStyle, Heap.get_alloc, if_pos rfl] at hs'
  simp only [Option.some.injEq, Obj.style.injEq] at hs'
  subst hs'
  have e1 := geometryCloneStep_extends hwf hg
  have e2 := cloneField_extends e1.2 hfF
  have e3 := cloneField_extends e2.2 hfI
  have e4 := cloneField_extends e3.2 hfS
  have e5 := cloneField_extends e4.2 hfT
  have e6 : HeapExtends h5 (newStyle h5
      { geometry := g, fill := f, image := img, stroke := st, text := t,
        zIndex := s.zIndex_ }) := heapExtends_alloc e5.2 _
  have x45 := heapExtends_trans e5.1 e6
  have x35 := heapExtends_trans e4.1 x45
  have x25 := heapExtends_trans e3.1 x35
  have x15 := heapExtends_trans e2.1 x25
  have x05 := heapExtends_trans e1.1 x15
  refine ⟨rfl, ?_, ?_, ?_, ?_, ?_, ?_, ?_, ?_, ?_, ?_, ?_⟩
  · -- geometry without clone capability, not undefined: reused as-is
    intro hcond hne
    have hb : (s.geometry_.truthy && hasCloneProp h s.geometry_) = false := by
      rcases hcond with hcond | hcond <;> simp [hcond]
    rcases geometryCloneStep_eq_some hg with ⟨_, hgg, _⟩ | ⟨hbt, _⟩
    · subst hgg
      rw [mkStyleFields_geometry]
      exact if_pos hne
    · rw [hb] at hbt
      exact absurd hbt (by simp)
  · -- geometry undefined: normalized to null
    intro hu
    have hb : (s.geometry_.truthy && hasCloneProp h s.geometry_) = false := by
      rw [hu]; rfl
    rcases geometryCloneStep_eq_some hg with ⟨_, hgg, _⟩ | ⟨hbt, _⟩
    · subst hgg
      rw [mkStyleFields_geometry, hu]
      simp
    · rw [hb] at hbt
      exact absurd hbt (by simp)
  · -- geometry with clone capability: deep copy at a fresh reference
    intro gr p hge hgr
    have hb : (s.geometry_.truthy && hasCloneProp h s.geometry_) = true := by
      rw [hge]
      simp [hasCloneProp, hgr, JSValue.truthy]
    rcases geometryCloneStep_eq_some hg with ⟨hbf, _, _⟩ | ⟨_, hcv⟩
    · rw [hb] at hbf
      exact absurd hbf (by simp)
    rw [hge] at hcv
    obtain ⟨r0, o, oc, hveq, hor, hoc, hg2, hh1⟩ := cloneValue_eq_some hcv
    have hr0 : gr = r0 := by injection hveq with hh
    subst hr0
    rw [hgr] at hor
    have ho : Obj.geom true p = o := by injection hor with hh
    subst ho
    have hoc2 : Obj.geom true p = oc := by injection hoc with hh
    subst hoc2
    subst hg2
    subst hh1
    have hgrlt : gr < h.next := Heap.get_lt_next hwf hgr
    have hsg : ((mkStyleFields
        { geometry := JSValue.obj h.next, fill := f, image := img,
          stroke := st, text := t, zIndex := s.zIndex_ }) :
        StyleFields).geometry_ = .obj h.next := by
      rw [mkStyleFields_geometry]
      exact if_pos (by simp)
    refine ⟨?_, ?_, ?_⟩
    · rw [hsg, hge]
      intro hcontra
      have hev : h.next = gr := by injection hcontra with hh
      exact Nat.ne_of_lt hgrlt hev.symm
    · rw [hsg]
      exact x15.2 h.next _ (by rw [Heap.get_alloc, if_pos rfl])
    · rw [hge]
      exact x05.2 gr _ hgr
  · -- absent fill stays absent
    intro hf0
    rw [hf0] at hfF
    rcases cloneField_eq_some hfF with ⟨_, hfu, _⟩ | ⟨hbt, _⟩
    · subst hfu
      rw [mkStyleFields_fill]
      simp
    · exact absurd hbt (by simp [JSValue.truthy])
  · -- absent image stays absent
    intro hf0
    rw [hf0] at hfI
    rcases cloneField_eq_some hfI with ⟨_, hfu, _⟩ | ⟨hbt, _⟩
    · subst hfu
      rw [mkStyleFields_image]
      simp
    · exact absurd hbt (by simp [JSValue.truthy])
  · -- absent stroke stays absent
    intro hf0
    rw [hf0] at hfS
    rcases cloneField_eq_some hfS with ⟨_, hfu, _⟩ | ⟨hbt, _⟩
    · subst hfu
      rw [mkStyleFields_stroke]
      simp
    · exact absurd hbt (by simp [JSValue.truthy])
  · -- absent text stays absent
    intro hf0
    rw [hf0] at hfT
    rcases cloneField_eq_some hfT with ⟨_, hfu, _⟩ | ⟨hbt, _⟩
    · subst hfu
      rw [mkStyleFields_text]
      simp
    · exact absurd hbt (by simp [JSValue.truthy])
  · -- present fill: independent instance, mutation-safe
    intro fr c hfe hfr
    have hfr1 : h1.get fr = some (.fill c) := e1.1.2 fr _ hfr
    rw [hfe] at hfF
    rcases cloneField_eq_some hfF with ⟨hbt, _, _⟩ | ⟨_, hcv⟩
    · exact absurd hbt (by simp [JSValue.truthy])
    obtain ⟨r0, o, oc, hveq, hor, hoc, hf2, hh2⟩ := cloneValue_eq_some hcv
    have hr0 : fr = r0 := by injection hveq with hh
    subst hr0
    rw [hfr1] at hor
    have ho : Obj.fill c = o := by injection hor with hh
    subst ho
    have hoc2 : Obj.fill c = oc := by injection hoc with hh
    subst hoc2
    subst hf2
    subst hh2
    have hfrlt : fr < h.next := Heap.get_lt_next hwf hfr
    have hfrlt1 : fr < h1.next := Nat.lt_of_lt_of_le hfrlt e1.1.1
    have hsf : ((mkStyleFields
        { geometry := g, fill := JSValue.obj h1.next, image := img,
          stroke := st, text := t, zIndex := s.zIndex_ }) :
        StyleFields).fill_ = .obj h1.next := by
      rw [mkStyleFields_fill]
      exact if_pos (by simp)
    have hnew : (newStyle h5
        { geometry := g, fill := JSValue.obj h1.next, image := img,
          stroke := st, text := t, zIndex := s.zIndex_ }).get h1.next =
        some (.fill c) :=
      x25.2 h1.next _ (by rw [Heap.get_alloc, if_pos rfl])
    refine ⟨?_, ?_, ?_, ?_⟩
    · rw [hsf, hfe]
      intro hcontra
      have hev : h1.next = fr := by injection hcontra with hh
      exact Nat.ne_of_lt hfrlt1 hev.symm
    · rw [hsf]
      exact hnew
    · rw [hfe]
      exact x05.2 fr _ hfr
    · intro r2 c2 hs2
      rw [hsf] at hs2
      have hr2 : h1.next = r2 := by injection hs2 with hh
      subst hr2
      rw [hfe]
      show (fillSetColor _ h1.next c2).get fr = some (.fill c)
      simp only [fillSetColor, hnew]
      rw [Heap.get_set, if_neg (Nat.ne_of_lt hfrlt1)]
      exact x05.2 fr _ hfr
  · -- present image: independent instance
    intro ir rad fv sv hie hir
    have hir2 : h2.get ir = some (.circle rad fv sv) :=
      e2.1.2 ir _ (e1.1.2 ir _ hir)
    rw [hie] at hfI
    rcases cloneField_eq_some hfI with ⟨hbt, _, _⟩ | ⟨_, hcv⟩
    · exact absurd hbt (by simp [JSValue.truthy])
    obtain ⟨r0, o, oc, hveq, hor, hoc, hi2, hh3⟩ := cloneValue_eq_some hcv
    have hr0 : ir = r0 := by injection hveq with hh
    subst hr0
    rw [hir2] at hor
    have ho : Obj.circle rad fv sv = o := by injection hor with hh
    subst ho
    have hoc2 : Obj.circle rad fv sv = oc := by injection hoc with hh
    subst hoc2
    subst hi2
    subst hh3
    have hirlt : ir < h.next := Heap.get_lt_next hwf hir
    have hirlt2 : ir < h2.next :=
      Nat.lt_of_lt_of_le hirlt (Nat.le_trans e1.1.1 e2.1.1)
    have hsi : ((mkStyleFields
        { geometry := g, fill := f, image := JSValue.obj h2.next,
          stroke := st, text := t, zIndex := s.zIndex_ }) :
        StyleFields).image_ = .obj h2.next := by
      rw [mkStyleFields_image]
      exact if_pos (by simp)
    refine ⟨?_, ?_, ?_⟩
    · rw [hsi, hie]
      intro hcontra
      have hev : h2.next = ir := by injection hcontra with hh
      exact Nat.ne_of_lt hirlt2 hev.symm
    · rw [hsi]
      exact x35.2 h2.next _ (by rw [Heap.get_alloc, if_pos rfl])
    · rw [hie]
      exact x05.2 ir _ hir
  · -- present stroke: independent instance
    intro sr c w hse hsr
    have hsr3 : h3.get sr = some (.stroke c w) :=
      e3.1.2 sr _ (e2.1.2 sr _ (e1.1.2 sr _ hsr))
    rw [hse] at hfS
    rcases cloneField_eq_some hfS with ⟨hbt, _, _⟩ | ⟨_, hcv⟩
    · exact absurd hbt (by simp [JSValue.truthy])
    obtain ⟨r0, o, oc, hveq, hor, hoc, hs2, hh4⟩ := cloneValue_eq_some hcv
    have hr0 : sr = r0 := by injection hveq with hh
    subst hr0
    rw [hsr3] at hor
    have ho : Obj.stroke c w = o := by injection hor with hh
    subst ho
    have hoc2 : Obj.stroke c w = oc := by injection hoc with hh
    subst hoc2
    subst hs2
    subst hh4
    have hsrlt : sr < h.next := Heap.get_lt_next hwf hsr
    have hsrlt3 : sr < h3.next :=
      Nat.lt_of_lt_of_le hsrlt
        (Nat.le_trans e1.1.1 (Nat.le_trans e2.1.1 e3.1.1))
    have hss : ((mkStyleFields
        { geometry := g, fill := f, image := img,
          stroke := JSValue.obj h3.next, text := t,
          zIndex := s.zIndex_ }) :
        StyleFields).stroke_ = .obj h3.next := by
      rw [mkStyleFields_stroke]
      exact if_pos (by simp)
    refine ⟨?_, ?_, ?_⟩
    · rw [hss, hse]
      intro hcontra
      have hev : h3.next = sr := by injection hcontra with hh
      exact Nat.ne_of_lt hsrlt3 hev.symm
    · rw [hss]
      exact x45.2 h3.next _ (by rw [Heap.get_alloc, if_pos rfl])
    · rw [hse]
      exact x05.2 sr _ hsr
  · -- present text: independent instance
    intro tr p hte htr
    have htr4 : h4.get tr = some (.text p) :=
      e4.1.2 tr _ (e3.1.2 tr _ (e2.1.2 tr _ (e1.1.2 tr _ htr)))
    rw [hte] at hfT
    rcases cloneField_eq_some hfT with ⟨hbt, _, _⟩ | ⟨_, hcv⟩
    · exact absurd hbt (by simp [JSValue.truthy])
    obtain ⟨r0, o, oc, hveq, hor, hoc, ht2, hh5⟩ := cloneValue_eq_some hcv
    have hr0 : tr = r0 := by injection hveq with hh
    subst hr0
    rw [htr4] at hor
    have ho : Obj.text p = o := by injection hor with hh
    subst ho
    have hoc2 : Obj.text p = oc := by injection hoc with hh
    subst hoc2
    subst ht2
    subst hh5
    have htrlt : tr < h.next := Heap.get_lt_next hwf htr
    have htrlt4 : tr < h4.next :=
      Nat.lt_of_lt_of_le htrlt
        (Nat.le_trans e1.1.1
          (Nat.le_trans e2.1.1 (Nat.le_trans e3.1.1 e4.1.1)))
    have hst : ((mkStyleFields
        { geometry := g, fill := f, image := img, stroke := st,
          text := JSValue.obj h4.next, zIndex := s.zIndex_ }) :
        StyleFields).text_ = .obj h4.next := by
      rw [mkStyleFields_text]
      exact if_pos (by simp)
    refine ⟨?_, ?_, ?_⟩
    · rw [hst, hte]
      intro hcontra
      have hev : h4.next = tr := by injection hcontra with hh
      exact Nat.ne_of_lt htrlt4 hev.symm
    · rw [hst]
      exact e6.2 h4.next _ (by rw [Heap.get_alloc, if_pos rfl])
    · rw [hte]
      exact x05.2 tr _ htr

/-- C2 witness: the amended theorem applied to the concrete clone of the
fully populated style at 5 in `cloneWitnessHeap` (clonable geometry at 0,
fill at 1, stroke at 2, circle image at 3, text at 4): every sub-style of
the clone is a distinct reference with equal contents, recoloring the
clone's fill leaves the original fill intact, and the zIndex is copied. -/
theorem claim_C2_amended_witness :
    getZIndex cloneWitnessStyle = getZIndex cloneWitnessOrig ∧
    cloneWitnessStyle.geometry_ ≠ cloneWitnessOrig.geometry_ ∧
    objAt cloneWitnessOut.2 cloneWitnessStyle.geometry_ =
      some (.geom true 7) ∧
    cloneWitnessStyle.fill_ ≠ cloneWitnessOrig.fill_ ∧
    objAt cloneWitnessOut.2 cloneWitnessStyle.fill_ =
      some (.fill (.str "red")) ∧
    objAt cloneWitnessOut.2 cloneWitnessOrig.fill_ =
      some (.fill (.str "red")) ∧
    objAt (fillSetColor cloneWitnessOut.2 7 (.str "green"))
      cloneWitnessOrig.fill_ = some (.fill (.str "red")) ∧
    cloneWitnessStyle.image_ ≠ cloneWitnessOrig.image_ ∧
    cloneWitnessStyle.stroke_ ≠ cloneWitnessOrig.stroke_ ∧
    cloneWitnessStyle.text_ ≠ cloneWitnessOrig.text_ := by
  have hm := claim_C2_amended cloneWitnessHeap 5 cloneWitnessOut.1
    cloneWitnessOut.2 cloneWitnessOrig cloneWitnessStyle rfl rfl rfl rfl
  have hgeo := hm.2.2.2.1 0 7 rfl rfl
  have hfill := hm.2.2.2.2.2.2.2.2.1 1 (.str "red") rfl rfl
  have him := hm.2.2.2.2.2.2.2.2.2.1 3 (numv 4) .null .null rfl rfl
  have hstr := hm.2.2.2.2.2.2.2.2.2.2.1 2 (.str "blue") (numv 2) rfl rfl
  have htxt := hm.2.2.2.2.2.2.2.2.2.2.2 4 (.str "hi") rfl rfl
  exact ⟨hm.1, hgeo.1, hgeo.2.1, hfill.1, hfill.2.1, hfill.2.2.1,
    hfill.2.2.2 7 (.str "green") rfl, him.1, hstr.1, htxt.1⟩

end OLStyle
